import Mathlib

/-!
Shallow embedding of the SQLite state-store component
(package component: sqlite_dbaccess.go, sqlite_setvalue.go,
sqlite_deletevalue.go, sqlite.go), with theorems about its claims.

The database table (one row per key, key TEXT PRIMARY KEY) is modelled as a
function from keys to optional rows; SQL timestamps are Nat instants and
CURRENT_TIMESTAMP is an explicit parameter now. Go byte slices are lists of
Nat below 256. The Go library calls the component makes
(encoding/base64 StdEncoding, encoding/json Marshal and Unmarshal on string
values, strconv.ParseInt) are modelled by the executable codecs below.
Database I/O faults, contexts and locks are outside the pure model.
-/

namespace SqliteStore

/-! ## Hex digits (as used by the Go json encoder, lowercase) -/

def hexDigitChar (n : Nat) : Char :=
  "0123456789abcdef".data.getD n '0'

def hexVal (c : Char) : Option Nat :=
  if '0' ≤ c ∧ c ≤ '9' then some (c.toNat - 48)
  else if 'a' ≤ c ∧ c ≤ 'f' then some (c.toNat - 87)
  else if 'A' ≤ c ∧ c ≤ 'F' then some (c.toNat - 55)
  else none

theorem hexVal_hexDigitChar (n : Nat) (h : n < 16) :
    hexVal (hexDigitChar n) = some n := by
  have : ∀ m : Fin 16, hexVal (hexDigitChar m.val) = some m.val := by decide
  exact this ⟨n, h⟩

/-! ## UTF-8 bytes of a string (Go: conversion of string to byte slice) -/

def utf8EncodeChar (c : Char) : List Nat :=
  let n := c.toNat
  if n < 128 then [n]
  else if n < 2048 then [192 + n / 64, 128 + n % 64]
  else if n < 65536 then [224 + n / 4096, 128 + (n / 64) % 64, 128 + n % 64]
  else [240 + n / 262144, 128 + (n / 4096) % 64, 128 + (n / 64) % 64, 128 + n % 64]

def strBytes (s : String) : List Nat :=
  s.data.foldr (fun c acc => utf8EncodeChar c ++ acc) []

/-! ## Base64 (Go: encoding/base64 StdEncoding, with padding) -/

def base64Alphabet : List Char :=
  "ABCDEFGHIJKLMNOPQRSTUVWXYZabcdefghijklmnopqrstuvwxyz0123456789+/".data

def b64char (n : Nat) : Char :=
  base64Alphabet.getD n 'A'

def b64val (c : Char) : Option Nat :=
  base64Alphabet.findIdx? (fun x => x == c)

def base64EncodeList : List Nat → List Char
  | [] => []
  | [b0] => [b64char (b0 / 4), b64char (b0 % 4 * 16), '=', '=']
  | [b0, b1] => [b64char (b0 / 4), b64char (b0 % 4 * 16 + b1 / 16),
      b64char (b1 % 16 * 4), '=']
  | b0 :: b1 :: b2 :: rest =>
      b64char (b0 / 4) :: b64char (b0 % 4 * 16 + b1 / 16) ::
      b64char (b1 % 16 * 4 + b2 / 64) :: b64char (b2 % 64) ::
      base64EncodeList rest

def base64Encode (bs : List Nat) : String :=
  ⟨base64EncodeList bs⟩

def base64DecodeGroups : List Char → Option (List Nat)
  | [] => some []
  | c1 :: c2 :: c3 :: c4 :: rest =>
    match b64val c1, b64val c2 with
    | some s1, some s2 =>
      if c3 = '=' ∧ c4 = '=' ∧ rest = [] then
        some [s1 * 4 + s2 / 16]
      else
        match b64val c3 with
        | some s3 =>
          if c4 = '=' ∧ rest = [] then
            some [s1 * 4 + s2 / 16, s2 % 16 * 16 + s3 / 4]
          else
            match b64val c4, base64DecodeGroups rest with
            | some s4, some bs =>
                some ((s1 * 4 + s2 / 16) :: (s2 % 16 * 16 + s3 / 4) ::
                      (s3 % 4 * 64 + s4) :: bs)
            | _, _ => none
        | none => none
    | _, _ => none
  | _ => none

def base64Decode (s : String) : Option (List Nat) :=
  base64DecodeGroups s.data

theorem b64val_b64char (n : Nat) (h : n < 64) : b64val (b64char n) = some n := by
  have : ∀ m : Fin 64, b64val (b64char m.val) = some m.val := by decide
  exact this ⟨n, h⟩

theorem b64char_ne_pad (n : Nat) (h : n < 64) : b64char n ≠ '=' := by
  have : ∀ m : Fin 64, b64char m.val ≠ '=' := by decide
  exact this ⟨n, h⟩

theorem base64_roundtrip :
    ∀ bs : List Nat, (∀ b ∈ bs, b < 256) →
      base64DecodeGroups (base64EncodeList bs) = some bs
  | [], _ => rfl
  | [b0], h => by
      have hb0 : b0 < 256 := h b0 (by simp)
      simp only [base64EncodeList, base64DecodeGroups,
        b64val_b64char (b0 / 4) (by omega),
        b64val_b64char (b0 % 4 * 16) (by omega)]
      rw [if_pos (by simp)]
      simp only [Option.some.injEq, List.cons.injEq, and_true]
      omega
  | [b0, b1], h => by
      have hb0 : b0 < 256 := h b0 (by simp)
      have hb1 : b1 < 256 := h b1 (by simp)
      simp only [base64EncodeList, base64DecodeGroups,
        b64val_b64char (b0 / 4) (by omega),
        b64val_b64char (b0 % 4 * 16 + b1 / 16) (by omega),
        b64val_b64char (b1 % 16 * 4) (by omega)]
      rw [if_neg (fun hc => b64char_ne_pad (b1 % 16 * 4) (by omega) hc.1)]
      rw [if_pos (by simp)]
      simp only [Option.some.injEq, List.cons.injEq]
      refine ⟨by omega, by omega, trivial⟩
  | b0 :: b1 :: b2 :: rest, h => by
      have hb0 : b0 < 256 := h b0 (by simp)
      have hb1 : b1 < 256 := h b1 (by simp)
      have hb2 : b2 < 256 := h b2 (by simp)
      have ih := base64_roundtrip rest
        (fun b hb => h b (by simp [hb]))
      simp only [base64EncodeList, base64DecodeGroups,
        b64val_b64char (b0 / 4) (by omega),
        b64val_b64char (b0 % 4 * 16 + b1 / 16) (by omega),
        b64val_b64char (b1 % 16 * 4 + b2 / 64) (by omega),
        b64val_b64char (b2 % 64) (by omega)]
      rw [if_neg (fun hc => b64char_ne_pad (b1 % 16 * 4 + b2 / 64) (by omega) hc.1)]
      rw [if_neg (fun hc => b64char_ne_pad (b2 % 64) (by omega) hc.1)]
      rw [ih]
      simp only [Option.some.injEq, List.cons.injEq]
      refine ⟨by omega, by omega, by omega, trivial⟩

/-! ## JSON string literals (Go: encoding/json Marshal and Unmarshal applied
to a string value, with the default HTML escaping of the angle brackets,
the ampersand, and U+2028/U+2029) -/

def jsonEscapeChar (c : Char) : List Char :=
  if c = '"' then ['\\', '"']
  else if c = '\\' then ['\\', '\\']
  else if c = '\n' then ['\\', 'n']
  else if c = '\r' then ['\\', 'r']
  else if c = '\t' then ['\\', 't']
  else if c = '<' ∨ c = '>' ∨ c = '&' then
    ['\\', 'u', '0', '0', hexDigitChar (c.toNat / 16), hexDigitChar (c.toNat % 16)]
  else if c.toNat < 32 then
    ['\\', 'u', '0', '0', hexDigitChar (c.toNat / 16), hexDigitChar (c.toNat % 16)]
  else if c.toNat = 8232 ∨ c.toNat = 8233 then
    ['\\', 'u', '2', '0', '2', hexDigitChar (c.toNat % 16)]
  else [c]

def jsonEncodeString (s : String) : String :=
  ⟨'"' :: s.data.foldr (fun c acc => jsonEscapeChar c ++ acc) ['"']⟩

def hex4 (h1 h2 h3 h4 : Char) : Option Nat :=
  match hexVal h1, hexVal h2, hexVal h3, hexVal h4 with
  | some a, some b, some c, some d => some (((a * 16 + b) * 16 + c) * 16 + d)
  | _, _, _, _ => none

def unescapeChar (e : Char) : Option Char :=
  if e = '"' then some '"'
  else if e = '\\' then some '\\'
  else if e = '/' then some '/'
  else if e = 'b' then some (Char.ofNat 8)
  else if e = 'f' then some (Char.ofNat 12)
  else if e = 'n' then some '\n'
  else if e = 'r' then some '\r'
  else if e = 't' then some '\t'
  else none

def jsonDecodeAux : List Char → Option (List Char × List Char)
  | [] => none
  | c :: rest =>
    if c = '"' then some ([], rest)
    else if c = '\\' then
      match rest with
      | [] => none
      | e :: rest2 =>
        if e = 'u' then
          match rest2 with
          | h1 :: h2 :: h3 :: h4 :: rest3 =>
            match hex4 h1 h2 h3 h4, jsonDecodeAux rest3 with
            | some n, some (cont, rem) => some (Char.ofNat n :: cont, rem)
            | _, _ => none
          | _ => none
        else
          match unescapeChar e, jsonDecodeAux rest2 with
          | some ec, some (cont, rem) => some (ec :: cont, rem)
          | _, _ => none
    else
      match jsonDecodeAux rest with
      | some (cont, rem) => some (c :: cont, rem)
      | none => none

def jsonDecodeString (s : String) : Option String :=
  match s.data with
  | '"' :: rest =>
    match jsonDecodeAux rest with
    | some (cont, []) => some ⟨cont⟩
    | _ => none
  | _ => none

theorem hexVal_zero : hexVal '0' = some 0 := by decide

theorem hexVal_two : hexVal '2' = some 2 := by decide

theorem jsonDecodeAux_escape (c : Char) (rest : List Char) :
    jsonDecodeAux (jsonEscapeChar c ++ rest) =
      match jsonDecodeAux rest with
      | some (cont, rem) => some (c :: cont, rem)
      | none => none := by
  have hof : Char.ofNat c.toNat = c := Char.ofNat_toNat c
  unfold jsonEscapeChar
  split_ifs with h1 h2 h3 h4 h5 h6 h7 h8
  · subst h1
    cases hr : jsonDecodeAux rest with
    | none => rw [jsonDecodeAux.eq_def]; simp [unescapeChar, hr]
    | some p => rw [jsonDecodeAux.eq_def]; simp [unescapeChar, hr]
  · subst h2
    cases hr : jsonDecodeAux rest with
    | none => rw [jsonDecodeAux.eq_def]; simp [unescapeChar, hr]
    | some p => rw [jsonDecodeAux.eq_def]; simp [unescapeChar, hr]
  · subst h3
    cases hr : jsonDecodeAux rest with
    | none => rw [jsonDecodeAux.eq_def]; simp [unescapeChar, hr]
    | some p => rw [jsonDecodeAux.eq_def]; simp [unescapeChar, hr]
  · subst h4
    cases hr : jsonDecodeAux rest with
    | none => rw [jsonDecodeAux.eq_def]; simp [unescapeChar, hr]
    | some p => rw [jsonDecodeAux.eq_def]; simp [unescapeChar, hr]
  · subst h5
    cases hr : jsonDecodeAux rest with
    | none => rw [jsonDecodeAux.eq_def]; simp [unescapeChar, hr]
    | some p => rw [jsonDecodeAux.eq_def]; simp [unescapeChar, hr]
  · have ht : c.toNat < 256 := by
      rcases h6 with h | h | h <;> subst h <;> decide
    have hv : hex4 '0' '0' (hexDigitChar (c.toNat / 16)) (hexDigitChar (c.toNat % 16))
        = some c.toNat := by
      simp only [hex4, hexVal_zero,
        hexVal_hexDigitChar (c.toNat / 16) (by omega),
        hexVal_hexDigitChar (c.toNat % 16) (by omega)]
      congr 1
      omega
    cases hr : jsonDecodeAux rest with
    | none => simp [jsonDecodeAux, hv, hr]
    | some p => simp [jsonDecodeAux, hv, hr, hof]
  · have hv : hex4 '0' '0' (hexDigitChar (c.toNat / 16)) (hexDigitChar (c.toNat % 16))
        = some c.toNat := by
      simp only [hex4, hexVal_zero,
        hexVal_hexDigitChar (c.toNat / 16) (by omega),
        hexVal_hexDigitChar (c.toNat % 16) (by omega)]
      congr 1
      omega
    cases hr : jsonDecodeAux rest with
    | none => simp [jsonDecodeAux, hv, hr]
    | some p => simp [jsonDecodeAux, hv, hr, hof]
  · have hv : hex4 '2' '0' '2' (hexDigitChar (c.toNat % 16)) = some c.toNat := by
      simp only [hex4, hexVal_zero, hexVal_two,
        hexVal_hexDigitChar (c.toNat % 16) (by omega)]
      congr 1
      omega
    cases hr : jsonDecodeAux rest with
    | none => simp [jsonDecodeAux, hv, hr]
    | some p => simp [jsonDecodeAux, hv, hr, hof]
  · cases hr : jsonDecodeAux rest with
    | none => rw [jsonDecodeAux.eq_def]; simp [if_neg h1, if_neg h2, hr]
    | some p => rw [jsonDecodeAux.eq_def]; simp [if_neg h1, if_neg h2, hr]

theorem jsonDecodeAux_foldr (cs rest : List Char) :
    jsonDecodeAux (cs.foldr (fun c acc => jsonEscapeChar c ++ acc) ('"' :: rest))
      = some (cs, rest) := by
  induction cs with
  | nil => rw [List.foldr_nil, jsonDecodeAux.eq_def]; simp
  | cons c cs ih =>
      simp only [List.foldr_cons, jsonDecodeAux_escape, ih]

theorem jsonString_roundtrip (s : String) :
    jsonDecodeString (jsonEncodeString s) = some s := by
  show jsonDecodeString ⟨'"' :: s.data.foldr (fun c acc => jsonEscapeChar c ++ acc) ['"']⟩ = some s
  unfold jsonDecodeString
  have h := jsonDecodeAux_foldr s.data []
  simp only [h]

/-! ## Data model

One row of the state table (schema createTableTpl): key TEXT PRIMARY KEY,
value TEXT, is_binary BOOLEAN, etag TEXT, creation_time TIMESTAMP,
expiration_time TIMESTAMP nullable, update_time TIMESTAMP. The table is a
function from keys to optional rows (the primary key makes keys unique), and
timestamps are Nat instants. -/

structure Row where
  value : String
  isBinary : Bool
  etag : String
  creationTime : Nat
  expirationTime : Option Nat
  updateTime : Nat
deriving DecidableEq

def DB : Type := String → Option Row

def emptyDB : DB := fun _ => none

/-- Write (INSERT OR REPLACE) the row stored at a key. -/
def dbInsert (db : DB) (k : String) (r : Row) : DB :=
  fun k2 => if k2 = k then some r else db k2

/-- Remove (DELETE) the row stored at a key. -/
def dbErase (db : DB) (k : String) : DB :=
  fun k2 => if k2 = k then none else db k2

/-- The error outcomes of the component, one constructor per distinct Go
error value produced in sqlite_dbaccess.go, sqlite_setvalue.go and
sqlite_deletevalue.go. etagMismatch models state.NewETagError
(state.ETagMismatch, err); all others are generic (fmt.Errorf / errors.New)
error values. -/
inductive Err
  | invalidOptions
  | missingKeySet
  | emptyValue
  | ttlParse
  | ttlOutOfRange
  | missingEtagFirstWrite
  | noItemUpdated
  | etagMismatch
  | expectingSetRequest
  | expectingDeleteRequest
  | missingKeyGet
  | jsonDecodeFailed
  | base64DecodeFailed
  | missingKeyDelete
  | invalidIdentifier
deriving DecidableEq

/-- state.FirstWrite from dapr components-contrib. -/
def firstWrite : String := "first-write"

/-- state.LastWrite from dapr components-contrib. -/
def lastWrite : String := "last-write"

/-- state.Upsert from dapr components-contrib. -/
def upsertOp : String := "upsert"

/-- state.Delete from dapr components-contrib. -/
def deleteOp : String := "delete"

/-- A Go request value (the interface value state.SetRequest.Value),
restricted to the two payload shapes the component distinguishes: a byte
slice (the binary case, detected by the type switch in prepareSetRequest)
and a string. -/
inductive Value
  | str (s : String)
  | bytes (bs : List Nat)
deriving DecidableEq

/-- state.SetRequest: key, value, optional ETag, Options.Concurrency and the
ttlInSeconds entry of the request metadata map (the only entry the component
reads). Consistency options are not modelled. -/
structure SetRequest where
  key : String
  value : Value
  etag : Option String
  concurrency : String
  ttlMeta : Option String
deriving DecidableEq

/-- state.DeleteRequest: key, optional ETag, Options.Concurrency. -/
structure DeleteRequest where
  key : String
  etag : Option String
  concurrency : String
deriving DecidableEq

/-- validateConcurrencyOption inside state.CheckRequestOptions from dapr
components-contrib: the concurrency string must be empty, first-write or
last-write. -/
def validConcurrency (c : String) : Prop :=
  c = "" ∨ c = firstWrite ∨ c = lastWrite

instance (c : String) : Decidable (validConcurrency c) := by
  unfold validConcurrency
  infer_instance

/-! ## parseTTL and checkRequestOptions (sqlite_setvalue.go) -/

/-- Decimal digit accumulator for parseIntGo. -/
def digitsToNatAux : Nat → List Char → Option Nat
  | acc, [] => some acc
  | acc, c :: rest =>
    if '0' ≤ c ∧ c ≤ '9' then digitsToNatAux (acc * 10 + (c.toNat - 48)) rest
    else none

/-- A non-empty run of decimal digits. -/
def digitsToNat : List Char → Option Nat
  | [] => none
  | ds => digitsToNatAux 0 ds

/-- Go strconv.ParseInt on base 10: an optional sign followed by at least
one decimal digit. (The Go bit-size overflow check is not modelled; TTL
values are far below it.) -/
def parseIntGo (s : String) : Option Int :=
  match s.data with
  | '+' :: ds => (digitsToNat ds).map Int.ofNat
  | '-' :: ds => (digitsToNat ds).map fun n => -(n : Int)
  | ds => (digitsToNat ds).map Int.ofNat

/-- parseTTL: reads the ttlInSeconds metadata entry; absent or empty means
no TTL, -1 means never expire (no TTL), below -1 is an error, otherwise the
parsed non-negative number of seconds. -/
def parseTTL (meta : Option String) : Except Err (Option Int) :=
  match meta with
  | some val =>
    if val = "" then .ok none
    else
      match parseIntGo val with
      | none => .error .ttlParse
      | some parsed =>
        if parsed < -1 then .error .ttlOutOfRange
        else if parsed = -1 then .ok none
        else .ok (some parsed)
  | none => .ok none

/-- checkRequestOptions: validates the concurrency option; FirstWrite
requires a non-empty ETag; LastWrite clears any supplied ETag. An absent
concurrency option (the empty string) falls through with the ETag kept. -/
def checkRequestOptions (req : SetRequest) : Except Err SetRequest :=
  if validConcurrency req.concurrency then
    if req.concurrency = firstWrite then
      if req.etag.getD "" = "" then .error .missingEtagFirstWrite
      else .ok req
    else if req.concurrency = lastWrite then .ok { req with etag := none }
    else .ok req
  else .error .invalidOptions

/-- The value-encoding step of prepareSetRequest: a byte-slice payload is
base64-encoded and marked binary, then either payload is JSON-encoded
(utils.Marshal with json.Marshal; the base64 output is a string, so both
cases marshal a Go string). Returns the stored text and the is_binary flag. -/
def encodeValue : Value → String × Bool
  | .bytes bs => (jsonEncodeString (base64Encode bs), true)
  | .str s => (jsonEncodeString s, false)

/-- The parsed set request built by prepareSetRequest (struct setRequest in
sqlite_setvalue.go, minus the transaction handle and table name). -/
structure PreparedSet where
  key : String
  value : String
  isBinary : Bool
  ttlSeconds : Option Int
  etag : Option String
deriving DecidableEq

/-- prepareSetRequest: option check, key and empty-string-value validation,
TTL parsing, then value encoding. -/
def prepareSetRequest (req0 : SetRequest) : Except Err PreparedSet :=
  match checkRequestOptions req0 with
  | .error e => .error e
  | .ok req =>
    if req.key = "" then .error .missingKeySet
    else if req.value = Value.str "" then .error .emptyValue
    else
      match parseTTL req.ttlMeta with
      | .error e => .error e
      | .ok ttl =>
        .ok { key := req.key, value := (encodeValue req.value).1,
              isBinary := (encodeValue req.value).2,
              ttlSeconds := ttl, etag := req.etag }

/-- setRequest.setValue: executes one SQL write inside the transaction and
reports whether exactly one row was affected. With no (or empty) ETag this
is setValueTpl, INSERT OR REPLACE: the new expiration_time is
DATETIME(now, +ttl seconds) when a TTL was parsed and NULL otherwise, and
creation_time comes from the correlated subquery on the existing row —
when the key is absent the subquery yields NULL and SQLite's REPLACE
conflict resolution substitutes the column default CURRENT_TIMESTAMP; one
row is always affected. With a non-empty ETag this is setValueWithETagTpl,
UPDATE ... WHERE key = ? AND etag = ?: it touches one row exactly when the
key exists with the supplied etag (no expiration check), and leaves
creation_time alone. The fresh uuid newEtag is a parameter. -/
def PreparedSet.setValue (r : PreparedSet) (db : DB) (now : Nat)
    (newEtag : String) : Bool × DB :=
  let expiration : Option Nat := r.ttlSeconds.map fun n => now + n.toNat
  if r.etag.getD "" = "" then
    let creation : Nat :=
      match db r.key with
      | some old => old.creationTime
      | none => now
    (true, dbInsert db r.key
      { value := r.value, isBinary := r.isBinary, etag := newEtag,
        creationTime := creation, expirationTime := expiration,
        updateTime := now })
  else
    match db r.key with
    | some old =>
      if old.etag = r.etag.getD "" then
        (true, dbInsert db r.key
          { value := r.value, isBinary := r.isBinary, etag := newEtag,
            creationTime := old.creationTime, expirationTime := expiration,
            updateTime := now })
      else (false, db)
    | none => (false, db)

/-- sqliteDBAccess.setValue: prepare, execute, then turn zero rows affected
into the generic error value "no item was updated". In the Go code an
execution error (res, err with err non-nil) with a supplied non-empty ETag
is mapped to an ETagMismatch error; in this pure model SQL execution cannot
fail, so that branch is unreachable and zero affected rows is the only
failure of the write itself. -/
def setValue (db : DB) (now : Nat) (newEtag : String) (req : SetRequest) :
    Except Err DB :=
  match prepareSetRequest req with
  | .error e => .error e
  | .ok r =>
    match r.setValue db now newEtag with
    | (true, db2) => .ok db2
    | (false, _) => .error .noItemUpdated

/-- sqliteDBAccess.Set: one transaction around setValue; on error the
deferred rollback leaves the database unchanged, on success the transaction
commits. Returns the surfaced error and the resulting database. -/
def Set (db : DB) (now : Nat) (newEtag : String) (req : SetRequest) :
    Option Err × DB :=
  match setValue db now newEtag req with
  | .error e => (some e, db)
  | .ok db2 => (none, db2)

/-! ## Delete (sqlite_deletevalue.go and sqlite_dbaccess.go) -/

/-- prepareDeleteRequest: option check, key validation, and FirstWrite
requires a non-empty ETag. -/
def prepareDeleteRequest (req : DeleteRequest) : Except Err DeleteRequest :=
  if validConcurrency req.concurrency then
    if req.key = "" then .error .missingKeyDelete
    else if req.concurrency = firstWrite ∧ req.etag.getD "" = "" then
      .error .missingEtagFirstWrite
    else .ok req
  else .error .invalidOptions

/-- deleteRequest.deleteValue: with no (or empty) ETag, delValueTpl deletes
by key alone and affects one row exactly when the key is present (expired
rows included); with a non-empty ETag, delValueWithETagTpl deletes the row
exactly when both key and etag match. Reports whether one row was
affected. -/
def DeleteRequest.deleteValue (r : DeleteRequest) (db : DB) : Bool × DB :=
  if r.etag.getD "" = "" then
    ((db r.key).isSome, dbErase db r.key)
  else
    match db r.key with
    | some old =>
      if old.etag = r.etag.getD "" then (true, dbErase db r.key)
      else (false, db)
    | none => (false, db)

/-- sqliteDBAccess.deleteValue: prepare, execute; zero rows affected while a
non-empty ETag was supplied is an ETagMismatch error, otherwise zero rows
affected is a success. -/
def deleteValue (db : DB) (req : DeleteRequest) : Except Err DB :=
  match prepareDeleteRequest req with
  | .error e => .error e
  | .ok r =>
    match r.deleteValue db with
    | (hasUpdate, db2) =>
      if hasUpdate = false ∧ req.etag.getD "" ≠ "" then .error .etagMismatch
      else .ok db2

/-- sqliteDBAccess.Delete: one transaction around deleteValue, rollback on
error, commit on success. -/
def Delete (db : DB) (req : DeleteRequest) : Option Err × DB :=
  match deleteValue db req with
  | .error e => (some e, db)
  | .ok db2 => (none, db2)

/-! ## Get (sqlite_dbaccess.go) -/

/-- The response of Get: the returned data bytes and ETag, both absent for
the empty response. (The Go response also echoes the request metadata,
which carries no state and is not modelled.) -/
structure GetResponse where
  data : Option (List Nat)
  etag : Option String
deriving DecidableEq

/-- The binary decode path of Get: json.Unmarshal into a string, then
base64 StdEncoding decode; either step may fail. -/
def decodeBinaryValue (value : String) : Except Err (List Nat) :=
  match jsonDecodeString value with
  | none => .error .jsonDecodeFailed
  | some s =>
    match base64Decode s with
    | none => .error .base64DecodeFailed
    | some data => .ok data

/-- The liveness filter of getValueTpl: expiration_time IS NULL OR
expiration_time > CURRENT_TIMESTAMP. -/
def liveAt (now : Nat) (r : Row) : Bool :=
  match r.expirationTime with
  | none => true
  | some exp => decide (now < exp)

/-- sqliteDBAccess.Get: empty key is an error; a missing or expired row is
sql.ErrNoRows and becomes an empty successful response; a live binary row
is JSON- then base64-decoded (errors surface); a live non-binary row comes
back as the raw stored bytes ([]byte(value)) with no decoding. -/
def Get (db : DB) (now : Nat) (key : String) : Except Err GetResponse :=
  if key = "" then .error .missingKeyGet
  else
    match db key with
    | none => .ok { data := none, etag := none }
    | some r =>
      if liveAt now r then
        if r.isBinary then
          match decodeBinaryValue r.value with
          | .error e => .error e
          | .ok data => .ok { data := some data, etag := some r.etag }
        else .ok { data := some (strBytes r.value), etag := some r.etag }
      else .ok { data := none, etag := none }

/-! ## ExecuteMulti (sqlite_dbaccess.go) -/

/-- The payload of a state.TransactionalStateOperation (a Go interface
value, type-switched by ExecuteMulti). -/
inductive ReqPayload
  | set (r : SetRequest)
  | del (r : DeleteRequest)
deriving DecidableEq

/-- state.TransactionalStateOperation: the operation kind string and the
request payload. -/
structure TxOp where
  operation : String
  request : ReqPayload
deriving DecidableEq

/-- The loop body of ExecuteMulti running against one open transaction:
an upsert must carry a set request and runs setValue, a delete must carry a
delete request and runs deleteValue, any other operation kind does nothing;
the first error stops the loop. Each setValue consumes a fresh uuid from
the stream gen at index i. -/
def execMultiOps (now : Nat) (gen : Nat → String) :
    DB → Nat → List TxOp → Except Err DB
  | db, _, [] => .ok db
  | db, i, op :: rest =>
    if op.operation = upsertOp then
      match op.request with
      | .set sr =>
        match setValue db now (gen i) sr with
        | .error e => .error e
        | .ok db2 => execMultiOps now gen db2 (i + 1) rest
      | .del _ => .error .expectingSetRequest
    else if op.operation = deleteOp then
      match op.request with
      | .del dr =>
        match deleteValue db dr with
        | .error e => .error e
        | .ok db2 => execMultiOps now gen db2 i rest
      | .set _ => .error .expectingDeleteRequest
    else execMultiOps now gen db i rest

/-- sqliteDBAccess.ExecuteMulti: the whole batch runs in one transaction;
any error triggers the deferred rollback (the pre-batch database is kept),
and only a fully successful batch commits. -/
def ExecuteMulti (db : DB) (now : Nat) (gen : Nat → String)
    (ops : List TxOp) : Option Err × DB :=
  match execMultiOps now gen db 0 ops with
  | .error e => (some e, db)
  | .ok db2 => (none, db2)

/-! ## Identifier validation and the table-name part of Init
(sqlite_dbaccess.go) -/

/-- The allow-list test validIdentifier applies to each byte: ASCII digit,
lowercase letter, uppercase letter or underscore. -/
def validIdentChar (c : Char) : Bool :=
  (48 ≤ c.toNat && c.toNat ≤ 57) || (97 ≤ c.toNat && c.toNat ≤ 122) ||
  (65 ≤ c.toNat && c.toNat ≤ 90) || c.toNat == 95

/-- validIdentifier: a non-empty string all of whose characters pass the
allow-list. The Go loop ranges over the UTF-8 bytes; a character outside
ASCII contributes only bytes at 128 or above, which fail the byte test, so
the per-character test is equivalent. -/
def validIdentifier (v : String) : Bool :=
  if v = "" then false
  else v.data.all validIdentChar

/-- defaultTableName. -/
def defaultTableName : String := "state"

/-- The table-name step of Init, which runs before the database handle is
even opened (so before any SQL): an absent or empty tableName property
falls back to the default, any other value must pass validIdentifier or
Init fails with the invalid-identifier error. -/
def initTableName (prop : Option String) : Except Err String :=
  match prop with
  | none => .ok defaultTableName
  | some t =>
    if t = "" then .ok defaultTableName
    else if validIdentifier t then .ok t
    else .error .invalidIdentifier

/-! ## Shared analysis lemmas -/

theorem dbInsert_same (db : DB) (k : String) (r : Row) :
    dbInsert db k r k = some r := by
  simp [dbInsert]

theorem dbInsert_other (db : DB) (k : String) (r : Row) (k2 : String)
    (h : k2 ≠ k) : dbInsert db k r k2 = db k2 := by
  simp [dbInsert, h]

theorem checkRequestOptions_ok (req req2 : SetRequest)
    (h : checkRequestOptions req = .ok req2) :
    req2.key = req.key ∧ req2.value = req.value ∧ req2.ttlMeta = req.ttlMeta := by
  unfold checkRequestOptions at h
  split_ifs at h
  all_goals injection h with h2
  all_goals subst h2
  all_goals exact ⟨rfl, rfl, rfl⟩

theorem prepareSetRequest_ok (req : SetRequest) (r : PreparedSet)
    (h : prepareSetRequest req = .ok r) :
    r.key = req.key ∧ parseTTL req.ttlMeta = .ok r.ttlSeconds ∧
    r.value = (encodeValue req.value).1 ∧
    r.isBinary = (encodeValue req.value).2 := by
  unfold prepareSetRequest at h
  cases hc : checkRequestOptions req with
  | error e => rw [hc] at h; exact Except.noConfusion h
  | ok req2 =>
    rw [hc] at h
    dsimp only at h
    obtain ⟨hk, hv, ht⟩ := checkRequestOptions_ok req req2 hc
    split_ifs at h
    cases hpt : parseTTL req2.ttlMeta with
    | error e => rw [hpt] at h; exact Except.noConfusion h
    | ok ttl =>
      rw [hpt] at h
      injection h with h2
      subst h2
      rw [ht] at hpt
      exact ⟨hk, hpt, by rw [hv], by rw [hv]⟩

theorem PreparedSet.setValue_true (r : PreparedSet) (db : DB) (now : Nat)
    (g : String) (db2 : DB) (h : r.setValue db now g = (true, db2)) :
    db2 = dbInsert db r.key
      { value := r.value, isBinary := r.isBinary, etag := g,
        creationTime :=
          match db r.key with
          | some old => old.creationTime
          | none => now,
        expirationTime := r.ttlSeconds.map fun n => now + n.toNat,
        updateTime := now } := by
  unfold PreparedSet.setValue at h
  dsimp only at h
  split_ifs at h with he
  · injection h with h1 h2
    exact h2.symm
  · cases hd : db r.key with
    | none =>
        rw [hd] at h
        dsimp only at h
        injection h with h1 h2
        exact absurd h1 (by decide)
    | some old =>
        rw [hd] at h
        dsimp only at h
        split_ifs at h with het
        · injection h with h1 h2
          rw [← h2]
        · injection h with h1 h2
          exact absurd h1 (by decide)

theorem setValue_ok_row (db : DB) (now : Nat) (g : String) (req : SetRequest)
    (db2 : DB) (h : setValue db now g req = .ok db2) :
    ∃ r : PreparedSet, prepareSetRequest req = .ok r ∧ r.key = req.key ∧
      parseTTL req.ttlMeta = .ok r.ttlSeconds ∧
      db2 req.key = some
        { value := r.value, isBinary := r.isBinary, etag := g,
          creationTime :=
            match db req.key with
            | some old => old.creationTime
            | none => now,
          expirationTime := r.ttlSeconds.map fun n => now + n.toNat,
          updateTime := now } := by
  unfold setValue at h
  cases hp : prepareSetRequest req with
  | error e => rw [hp] at h; exact Except.noConfusion h
  | ok r =>
    rw [hp] at h
    dsimp only at h
    obtain ⟨hk, ht, _, _⟩ := prepareSetRequest_ok req r hp
    cases hsv : r.setValue db now g with
    | mk b db3 =>
      rw [hsv] at h
      cases b with
      | false => exact Except.noConfusion h
      | true =>
        injection h with h2
        subst h2
        have hshape := PreparedSet.setValue_true r db now g db3 hsv
        refine ⟨r, rfl, hk, ht, ?_⟩
        rw [hshape, ← hk, dbInsert_same]

/-! ## Claims -/

/-- C1, counterexample: a FirstWrite Set whose ETag-guarded UPDATE matches
zero rows (here: the key is absent) surfaces the generic error value
"no item was updated", which is not the distinguished ETagMismatch kind —
in sqliteDBAccess.setValue the ETagMismatch mapping fires only when the SQL
execution itself returns an error, not when it succeeds affecting zero
rows. -/
theorem c1_counterexample :
    setValue emptyDB 0 "E" ⟨"k", .str "v", some "stale", firstWrite, none⟩
      = .error Err.noItemUpdated ∧ Err.noItemUpdated ≠ Err.etagMismatch :=
  ⟨rfl, by decide⟩

/-- C1 (corrected): for every Set request carrying a non-empty ETag under
FirstWrite that passes validation, if no stored row matches both the key
and the supplied ETag (key missing or ETag stale), the Set operation fails
with the generic "no item was updated" error and leaves the database
unchanged; the distinguished ETagMismatch error is reserved for the case
where the SQL execution itself fails while an ETag was supplied. -/
theorem c1_zero_rows_generic_error (db : DB) (now : Nat) (g key : String)
    (v : Value) (etag : String) (ttlMeta : Option String) (ttl : Option Int)
    (hk : key ≠ "") (hv : v ≠ Value.str "") (he : etag ≠ "")
    (ht : parseTTL ttlMeta = .ok ttl)
    (hnom : ∀ row, db key = some row → row.etag ≠ etag) :
    Set db now g ⟨key, v, some etag, firstWrite, ttlMeta⟩
      = (some Err.noItemUpdated, db) := by
  have hco : checkRequestOptions ⟨key, v, some etag, firstWrite, ttlMeta⟩
      = .ok ⟨key, v, some etag, firstWrite, ttlMeta⟩ := by
    unfold checkRequestOptions
    dsimp only
    rw [if_pos (show validConcurrency firstWrite from Or.inr (Or.inl rfl)),
      if_pos rfl, if_neg (by simpa using he)]
  have hpre : prepareSetRequest ⟨key, v, some etag, firstWrite, ttlMeta⟩
      = .ok ⟨key, (encodeValue v).1, (encodeValue v).2, ttl, some etag⟩ := by
    unfold prepareSetRequest
    rw [hco]
    dsimp only
    rw [if_neg hk, if_neg hv, ht]
  have hsv : PreparedSet.setValue
      ⟨key, (encodeValue v).1, (encodeValue v).2, ttl, some etag⟩ db now g
      = (false, db) := by
    unfold PreparedSet.setValue
    dsimp only
    rw [if_neg (by simpa using he)]
    cases hd : db key with
    | none => rfl
    | some old =>
        dsimp only
        rw [if_neg (by simpa using hnom old hd)]
  unfold Set setValue
  rw [hpre]
  dsimp only
  rw [hsv]

/-- C1 witness. -/
theorem c1_zero_rows_generic_error_witness :
    Set emptyDB 0 "E" ⟨"k2", .str "w", some "e1", firstWrite, none⟩
      = (some Err.noItemUpdated, emptyDB) :=
  c1_zero_rows_generic_error emptyDB 0 "E" "k2" (.str "w") "e1" none none
    (by decide) (by decide) (by decide) rfl (fun _ h => Option.noConfusion h)

/-- C2 (confirmed): ExecuteMulti is all-or-nothing. If the batch surfaces
an error (from any single operation: validation failure, ETag mismatch,
payload type mismatch or the zero-rows error), the resulting database is
exactly the pre-batch database — the transaction rolled back, so no earlier
operation's effect is observable; and if no error is surfaced, the loop ran
every operation to completion and the transaction committed its result. -/
theorem c2_multi_atomic (db : DB) (now : Nat) (gen : Nat → String)
    (ops : List TxOp) :
    ((ExecuteMulti db now gen ops).1 ≠ none →
      (ExecuteMulti db now gen ops).2 = db) ∧
    ((ExecuteMulti db now gen ops).1 = none →
      execMultiOps now gen db 0 ops = .ok (ExecuteMulti db now gen ops).2) := by
  unfold ExecuteMulti
  cases h : execMultiOps now gen db 0 ops with
  | error e => exact ⟨fun _ => rfl, fun hc => Option.noConfusion hc⟩
  | ok db2 => exact ⟨fun hne => absurd rfl hne, fun _ => rfl⟩

/-- C2 witness: a two-operation batch whose second operation is a delete
with a wrong ETag leaves the database exactly as it was, including the
first operation's upsert of a fresh key. -/
theorem c2_multi_atomic_witness :
    (ExecuteMulti (dbInsert emptyDB "a" ⟨"x", false, "E0", 0, none, 0⟩) 0
        (fun _ => "E1")
        [⟨upsertOp, .set ⟨"b", .str "w", none, "", none⟩⟩,
         ⟨deleteOp, .del ⟨"a", some "wrong", ""⟩⟩]).2
      = dbInsert emptyDB "a" ⟨"x", false, "E0", 0, none, 0⟩ :=
  (c2_multi_atomic (dbInsert emptyDB "a" ⟨"x", false, "E0", 0, none, 0⟩) 0
    (fun _ => "E1")
    [⟨upsertOp, .set ⟨"b", .str "w", none, "", none⟩⟩,
     ⟨deleteOp, .del ⟨"a", some "wrong", ""⟩⟩]).1 (by decide)

/-- C10 (confirmed): an operation in an ExecuteMulti batch whose kind is
neither upsert nor delete falls into the switch's default branch and is
silently skipped: running the batch with it equals running the batch
without it (no error, no effect, the remaining operations still execute and
commit). -/
theorem c10_unknown_operation_skipped (db : DB) (now : Nat)
    (gen : Nat → String) (i : Nat) (op : TxOp) (rest : List TxOp)
    (h1 : op.operation ≠ upsertOp) (h2 : op.operation ≠ deleteOp) :
    execMultiOps now gen db i (op :: rest) = execMultiOps now gen db i rest ∧
    ExecuteMulti db now gen (op :: rest) = ExecuteMulti db now gen rest := by
  have hstep : execMultiOps now gen db 0 (op :: rest)
      = execMultiOps now gen db 0 rest ∧
      execMultiOps now gen db i (op :: rest) = execMultiOps now gen db i rest := by
    constructor <;> (conv_lhs => rw [execMultiOps]) <;> rw [if_neg h1, if_neg h2]
  refine ⟨hstep.2, ?_⟩
  unfold ExecuteMulti
  rw [hstep.1]

theorem parseTTL_nonneg (meta : Option String) (ttl : Option Int)
    (h : parseTTL meta = .ok ttl) : ∀ n, ttl = some n → 0 ≤ n := by
  intro n hn
  subst hn
  unfold parseTTL at h
  cases meta with
  | none => injection h with h2; exact Option.noConfusion h2
  | some val =>
    dsimp only at h
    split_ifs at h with h0
    · injection h with h2; exact Option.noConfusion h2
    · cases hp : parseIntGo val with
      | none => rw [hp] at h; exact Except.noConfusion h
      | some parsed =>
        rw [hp] at h
        dsimp only at h
        split_ifs at h with hlt hm1
        · injection h with h2
          exact Option.noConfusion h2
        · injection h with h2
          injection h2 with h3
          omega

/-- C4, counterexample: with no concurrency option (the empty string, which
is what an absent option arrives as) and a supplied ETag, the ETag is NOT
cleared — the write takes the ETag-guarded UPDATE path and fails on a
missing key instead of succeeding as an upsert, so the claim's premise
that the LastWrite behaviour is the default is false. -/
theorem c4_counterexample :
    Set emptyDB 0 "E" ⟨"k", .str "v", some "e", "", none⟩
      = (some Err.noItemUpdated, emptyDB) := rfl

/-- C4 (corrected): for every Set request under the explicitly selected
LastWrite concurrency policy, any supplied ETag is ignored and cleared
before the write is built (the outcome is identical to the same request
with no ETag), the write targets the row by key alone (a plain upsert that
touches no other key), and it succeeds whether or not the key already
exists. When no concurrency option is given (the empty string), a supplied
ETag is not cleared and the write is ETag-guarded instead. -/
theorem c4_lastwrite_clears_etag (db : DB) (now : Nat) (g key : String)
    (v : Value) (etag : Option String) (ttlMeta : Option String)
    (ttl : Option Int)
    (hk : key ≠ "") (hv : v ≠ Value.str "") (ht : parseTTL ttlMeta = .ok ttl) :
    Set db now g ⟨key, v, etag, lastWrite, ttlMeta⟩
      = Set db now g ⟨key, v, none, lastWrite, ttlMeta⟩ ∧
    ∃ db2, Set db now g ⟨key, v, etag, lastWrite, ttlMeta⟩ = (none, db2) ∧
      db2 key = some
        { value := (encodeValue v).1, isBinary := (encodeValue v).2, etag := g,
          creationTime :=
            match db key with
            | some old => old.creationTime
            | none => now,
          expirationTime := ttl.map fun n => now + n.toNat,
          updateTime := now } ∧
      ∀ k2, k2 ≠ key → db2 k2 = db k2 := by
  have hco : ∀ e0 : Option String,
      checkRequestOptions ⟨key, v, e0, lastWrite, ttlMeta⟩
        = .ok ⟨key, v, none, lastWrite, ttlMeta⟩ := by
    intro e0
    unfold checkRequestOptions
    dsimp only
    rw [if_pos (show validConcurrency lastWrite from Or.inr (Or.inr rfl)),
      if_neg (by decide : ¬lastWrite = firstWrite), if_pos rfl]
  have hpre : ∀ e0 : Option String,
      prepareSetRequest ⟨key, v, e0, lastWrite, ttlMeta⟩
        = .ok ⟨key, (encodeValue v).1, (encodeValue v).2, ttl, none⟩ := by
    intro e0
    unfold prepareSetRequest
    rw [hco e0]
    dsimp only
    rw [if_neg hk, if_neg hv, ht]
  have hSet : ∀ e0 : Option String,
      Set db now g ⟨key, v, e0, lastWrite, ttlMeta⟩
        = (none, dbInsert db key
            { value := (encodeValue v).1, isBinary := (encodeValue v).2,
              etag := g,
              creationTime :=
                match db key with
                | some old => old.creationTime
                | none => now,
              expirationTime := ttl.map fun n => now + n.toNat,
              updateTime := now }) := by
    intro e0
    unfold Set setValue
    rw [hpre e0]
    rfl
  refine ⟨(hSet etag).trans (hSet none).symm, _, hSet etag,
    dbInsert_same db key _, fun k2 hne => dbInsert_other db key _ k2 hne⟩

/-- C4 witness. -/
theorem c4_lastwrite_clears_etag_witness :
    Set emptyDB 3 "E2" ⟨"k", .str "v", some "stale", lastWrite, none⟩
      = Set emptyDB 3 "E2" ⟨"k", .str "v", none, lastWrite, none⟩ :=
  (c4_lastwrite_clears_etag emptyDB 3 "E2" "k" (.str "v") (some "stale")
    none none (by decide) (by decide) rfl).1

/-- C6 (confirmed): for every Delete request that passes validation, zero
rows affected is an error exactly when a non-empty ETag was supplied: with
a non-empty ETag the row is removed only when both key and stored ETag
match and a non-match (missing key or different ETag) yields ETagMismatch;
with no ETag the delete targets the key alone and always succeeds, even
when no row was affected. -/
theorem c6_delete_zero_rows (db : DB) (req : DeleteRequest)
    (hvc : validConcurrency req.concurrency) (hk : req.key ≠ "")
    (hfw : ¬(req.concurrency = firstWrite ∧ req.etag.getD "" = "")) :
    (req.etag.getD "" = "" →
      deleteValue db req = .ok (dbErase db req.key)) ∧
    (req.etag.getD "" ≠ "" →
      (∀ old, db req.key = some old → old.etag = req.etag.getD "" →
          deleteValue db req = .ok (dbErase db req.key)) ∧
      ((∀ old, db req.key = some old → old.etag ≠ req.etag.getD "") →
          deleteValue db req = .error Err.etagMismatch)) := by
  have hprep : prepareDeleteRequest req = .ok req := by
    unfold prepareDeleteRequest
    rw [if_pos hvc, if_neg hk, if_neg hfw]
  constructor
  · intro he
    have h1 : req.deleteValue db = ((db req.key).isSome, dbErase db req.key) := by
      unfold DeleteRequest.deleteValue
      rw [if_pos he]
    unfold deleteValue
    rw [hprep]
    dsimp only
    rw [h1]
    dsimp only
    rw [if_neg (fun hc => hc.2 he)]
  · intro he
    constructor
    · intro old hd het
      have h1 : req.deleteValue db = (true, dbErase db req.key) := by
        unfold DeleteRequest.deleteValue
        rw [if_neg he, hd]
        dsimp only
        rw [if_pos het]
      unfold deleteValue
      rw [hprep]
      dsimp only
      rw [h1]
      dsimp only
      rw [if_neg (fun hc => absurd hc.1 (by decide))]
    · intro hno
      have h1 : req.deleteValue db = (false, db) := by
        unfold DeleteRequest.deleteValue
        rw [if_neg he]
        cases hd : db req.key with
        | none => rfl
        | some old =>
            dsimp only
            rw [if_neg (hno old hd)]
      unfold deleteValue
      rw [hprep]
      dsimp only
      rw [h1]
      dsimp only
      rw [if_pos ⟨rfl, he⟩]

/-- C6 witness: an ETag-less delete of a missing key succeeds, and a delete
of a missing key with an ETag fails with ETagMismatch. -/
theorem c6_delete_zero_rows_witness :
    deleteValue emptyDB ⟨"missing", none, lastWrite⟩
      = .ok (dbErase emptyDB "missing") ∧
    deleteValue emptyDB ⟨"a", some "stale", ""⟩ = .error Err.etagMismatch :=
  ⟨(c6_delete_zero_rows emptyDB ⟨"missing", none, lastWrite⟩
      (Or.inr (Or.inr rfl)) (by decide) (by decide)).1 rfl,
   ((c6_delete_zero_rows emptyDB ⟨"a", some "stale", ""⟩
      (Or.inl rfl) (by decide) (by decide)).2 (by decide)).2
     (fun _ h => Option.noConfusion h)⟩

/-- C7 (confirmed): every successful Set fully replaces the stored
expiration state of the written row: when the parsed TTL is a value n
(necessarily non-negative), expiration_time becomes now plus n seconds;
when no TTL was provided (absent metadata, empty string, or -1),
expiration_time becomes NULL regardless of what was stored before. -/
theorem c7_set_replaces_expiration (db : DB) (now : Nat) (g : String)
    (req : SetRequest) (db2 : DB) (ttl : Option Int)
    (h : setValue db now g req = .ok db2)
    (ht : parseTTL req.ttlMeta = .ok ttl) :
    ∃ row, db2 req.key = some row ∧
      row.expirationTime = ttl.map (fun n => now + n.toNat) ∧
      ∀ n, ttl = some n → 0 ≤ n := by
  obtain ⟨r, hp, hk, htr, hrow⟩ := setValue_ok_row db now g req db2 h
  have heq : ttl = r.ttlSeconds := by
    rw [ht] at htr
    injection htr
  subst heq
  exact ⟨_, hrow, rfl, parseTTL_nonneg req.ttlMeta _ ht⟩

/-- C7 witness: writing with a 5-second TTL at instant 10 stores expiration
instant 15, overwriting the previous NULL expiration of the row. -/
theorem c7_set_replaces_expiration_witness :
    (setValue (dbInsert emptyDB "k" ⟨"x", false, "E0", 5, none, 5⟩) 10 "E1"
        ⟨"k", .str "v", none, "", some "5"⟩).toOption.map
        (fun db2 => (db2 "k").map Row.expirationTime)
      = some (some (some 15)) := by
  have h : setValue (dbInsert emptyDB "k" ⟨"x", false, "E0", 5, none, 5⟩) 10
      "E1" ⟨"k", .str "v", none, "", some "5"⟩
      = .ok (dbInsert (dbInsert emptyDB "k" ⟨"x", false, "E0", 5, none, 5⟩)
          "k" { value := jsonEncodeString "v", isBinary := false,
                etag := "E1", creationTime := 5,
                expirationTime := some 15, updateTime := 10 }) := rfl
  obtain ⟨row, hrow, hexp, _⟩ := c7_set_replaces_expiration
    (dbInsert emptyDB "k" ⟨"x", false, "E0", 5, none, 5⟩) 10 "E1"
    ⟨"k", .str "v", none, "", some "5"⟩ _ (some 5) h rfl
  rw [h]
  simp [Except.toOption, hrow, hexp]

/-- C8 (confirmed): creation_time is set by the first insert of a key and
preserved by every subsequent successful Set on that key: when a row
already existed the written row keeps the old creation_time (via the
correlated lookup in the INSERT OR REPLACE, or untouched by the
ETag-guarded UPDATE), and when the key is fresh creation_time becomes the
current instant. -/
theorem c8_creation_time_immutable (db : DB) (now : Nat) (g : String)
    (req : SetRequest) (db2 : DB) (h : setValue db now g req = .ok db2) :
    (∀ old, db req.key = some old →
        ∃ row, db2 req.key = some row ∧
          row.creationTime = old.creationTime) ∧
    (db req.key = none →
        ∃ row, db2 req.key = some row ∧ row.creationTime = now) := by
  obtain ⟨r, hp, hk, htr, hrow⟩ := setValue_ok_row db now g req db2 h
  constructor
  · intro old hd
    refine ⟨_, hrow, ?_⟩
    dsimp only
    rw [hd]
  · intro hd
    refine ⟨_, hrow, ?_⟩
    dsimp only
    rw [hd]

/-- C8 witness: a key created at instant 5 and overwritten at instant 9
keeps creation_time 5. -/
theorem c8_creation_time_immutable_witness :
    (setValue (dbInsert emptyDB "k" ⟨"x", false, "E0", 5, none, 5⟩) 9 "E1"
        ⟨"k", .str "v", none, "", none⟩).toOption.map
        (fun db2 => (db2 "k").map Row.creationTime)
      = some (some 5) := by
  have h : setValue (dbInsert emptyDB "k" ⟨"x", false, "E0", 5, none, 5⟩) 9
      "E1" ⟨"k", .str "v", none, "", none⟩
      = .ok (dbInsert (dbInsert emptyDB "k" ⟨"x", false, "E0", 5, none, 5⟩)
          "k" { value := jsonEncodeString "v", isBinary := false,
                etag := "E1", creationTime := 5, expirationTime := none,
                updateTime := 9 }) := rfl
  obtain ⟨row, hrow, hc⟩ := (c8_creation_time_immutable
      (dbInsert emptyDB "k" ⟨"x", false, "E0", 5, none, 5⟩) 9 "E1"
      ⟨"k", .str "v", none, "", none⟩ _ h).1 ⟨"x", false, "E0", 5, none, 5⟩
      (dbInsert_same emptyDB "k" _)
  rw [h]
  simp [Except.toOption, hrow, hc]

/-- A Set request with no ETag, no concurrency option and no TTL metadata
always succeeds as an INSERT OR REPLACE of the encoded value. -/
theorem setValue_plain (db : DB) (now : Nat) (g key : String) (v : Value)
    (hk : key ≠ "") (hv : v ≠ Value.str "") :
    setValue db now g ⟨key, v, none, "", none⟩
      = .ok (dbInsert db key
          { value := (encodeValue v).1, isBinary := (encodeValue v).2,
            etag := g,
            creationTime :=
              match db key with
              | some old => old.creationTime
              | none => now,
            expirationTime := none, updateTime := now }) := by
  unfold setValue prepareSetRequest checkRequestOptions
  dsimp only
  rw [if_pos (show validConcurrency "" from Or.inl rfl),
    if_neg (by decide : ¬("" : String) = firstWrite),
    if_neg (by decide : ¬("" : String) = lastWrite)]
  dsimp only
  rw [if_neg hk, if_neg hv]
  rfl

/-- Get on a live non-binary row returns the raw stored bytes and the
ETag. -/
theorem Get_live_text (db : DB) (now : Nat) (key : String) (r : Row)
    (hk : key ≠ "") (hd : db key = some r) (hl : liveAt now r = true)
    (hb : r.isBinary = false) :
    Get db now key = .ok ⟨some (strBytes r.value), some r.etag⟩ := by
  unfold Get
  rw [if_neg hk, hd]
  dsimp only
  rw [if_pos hl, if_neg (by simp [hb])]

/-- Get on a live binary row returns the JSON-then-base64 decoded bytes and
the ETag when the decode succeeds. -/
theorem Get_live_binary (db : DB) (now : Nat) (key : String) (r : Row)
    (bs : List Nat) (hk : key ≠ "") (hd : db key = some r)
    (hl : liveAt now r = true) (hb : r.isBinary = true)
    (hdec : decodeBinaryValue r.value = .ok bs) :
    Get db now key = .ok ⟨some bs, some r.etag⟩ := by
  unfold Get
  rw [if_neg hk, hd]
  dsimp only
  rw [if_pos hl, if_pos hb, hdec]

/-- C3, counterexample: a Set of the text value x followed by a Get returns
the bytes of the stored JSON encoding (quote, x, quote — bytes 34 120 34),
not the bytes of x itself (byte 120): Get does not JSON-decode non-binary
rows, so text payloads do not round-trip byte-for-byte. -/
theorem c3_counterexample :
    (setValue emptyDB 0 "E1" ⟨"k", .str "x", none, "", none⟩).toOption.map
        (fun db2 => Get db2 0 "k")
      = some (.ok ⟨some [34, 120, 34], some "E1"⟩) ∧
    strBytes "x" = [120] :=
  ⟨rfl, rfl⟩

/-- C3 (corrected): binary payloads round-trip exactly — a successful Set
of a byte slice followed by a Get returns exactly those bytes, the base64
plus JSON double-encoding being inverted losslessly by Get's JSON-decode
then base64-decode. A text payload is returned by Get as the bytes of its
stored JSON encoding (Get applies no decoding to non-binary rows), and that
JSON encoding decodes back to the original text exactly. -/
theorem c3_roundtrip (db : DB) (now : Nat) (g key : String) (hk : key ≠ "") :
    (∀ bs : List Nat, (∀ b ∈ bs, b < 256) →
      ∃ db2, setValue db now g ⟨key, .bytes bs, none, "", none⟩ = .ok db2 ∧
        Get db2 now key = .ok ⟨some bs, some g⟩) ∧
    (∀ s : String, s ≠ "" →
      ∃ db2, setValue db now g ⟨key, .str s, none, "", none⟩ = .ok db2 ∧
        Get db2 now key
          = .ok ⟨some (strBytes (jsonEncodeString s)), some g⟩ ∧
        jsonDecodeString (jsonEncodeString s) = some s) := by
  constructor
  · intro bs hbs
    have hb64 : base64Decode (base64Encode bs) = some bs :=
      base64_roundtrip bs hbs
    have hdec : decodeBinaryValue (jsonEncodeString (base64Encode bs))
        = .ok bs := by
      unfold decodeBinaryValue
      rw [jsonString_roundtrip]
      dsimp only
      rw [hb64]
    exact ⟨_,
      setValue_plain db now g key (.bytes bs) hk (fun hc => Value.noConfusion hc),
      Get_live_binary _ now key _ bs hk (dbInsert_same db key _) rfl rfl hdec⟩
  · intro s hs
    exact ⟨_,
      setValue_plain db now g key (.str s) hk
        (fun hc => hs (Value.str.inj hc)),
      Get_live_text _ now key _ hk (dbInsert_same db key _) rfl rfl,
      jsonString_roundtrip s⟩

/-- C3 witness. -/
theorem c3_roundtrip_witness :
    (setValue emptyDB 0 "E9" ⟨"kb", .bytes [0, 255, 16], none, "", none⟩).toOption.map
        (fun db2 => Get db2 0 "kb")
      = some (.ok ⟨some [0, 255, 16], some "E9"⟩) ∧
    jsonDecodeString (jsonEncodeString "hi") = some "hi" := by
  constructor
  · obtain ⟨db2, hset, hget⟩ :=
      (c3_roundtrip emptyDB 0 "E9" "kb" (by decide)).1 [0, 255, 16] (by decide)
    rw [hset]
    simp [Except.toOption, hget]
  · obtain ⟨db2, hset, hget, hjson⟩ :=
      (c3_roundtrip emptyDB 0 "E9" "kt" (by decide)).2 "hi" (by decide)
    exact hjson

theorem decodeBinaryValue_error (v : String) (e : Err)
    (h : decodeBinaryValue v = .error e) :
    e = Err.jsonDecodeFailed ∨ e = Err.base64DecodeFailed := by
  unfold decodeBinaryValue at h
  cases hj : jsonDecodeString v with
  | none => rw [hj] at h; injection h with h2; exact Or.inl h2.symm
  | some s =>
    rw [hj] at h
    dsimp only at h
    cases hb : base64Decode s with
    | none => rw [hb] at h; injection h with h2; exact Or.inr h2.symm
    | some d => rw [hb] at h; exact Except.noConfusion h

/-- C5, counterexample: a Get request with an empty key returns a
validation error, even though an empty key has no row, where the claim
demands an empty successful result and admits errors only for decode
failures and database faults. -/
theorem c5_counterexample :
    Get emptyDB 0 "" = .error Err.missingKeyGet ∧ emptyDB "" = none :=
  ⟨rfl, rfl⟩

/-- C5 (corrected): for every Get request with a non-empty key, a missing
or expired row (expiration_time non-null and not in the future) yields an
empty successful result with no data and no ETag; a live row yields its
stored bytes (decoded when binary) together with its ETag; and Get returns
an error only on an empty key, a decode failure, or a database-level
fault. -/
theorem c5_get_empty_or_live (db : DB) (now : Nat) (key : String)
    (hk : key ≠ "") :
    (db key = none → Get db now key = .ok ⟨none, none⟩) ∧
    (∀ r, db key = some r → liveAt now r = false →
        Get db now key = .ok ⟨none, none⟩) ∧
    (∀ r, db key = some r → liveAt now r = true →
      (r.isBinary = false →
          Get db now key = .ok ⟨some (strBytes r.value), some r.etag⟩) ∧
      (∀ bs, r.isBinary = true → decodeBinaryValue r.value = .ok bs →
          Get db now key = .ok ⟨some bs, some r.etag⟩)) ∧
    (∀ e, Get db now key = .error e →
        e = Err.jsonDecodeFailed ∨ e = Err.base64DecodeFailed) := by
  refine ⟨?_, ?_, ?_, ?_⟩
  · intro hd
    unfold Get
    rw [if_neg hk, hd]
  · intro r hd hl
    unfold Get
    rw [if_neg hk, hd]
    dsimp only
    rw [if_neg (by simp [hl])]
  · intro r hd hl
    constructor
    · intro hb
      unfold Get
      rw [if_neg hk, hd]
      dsimp only
      rw [if_pos hl, if_neg (by simp [hb])]
    · intro bs hb hdec
      unfold Get
      rw [if_neg hk, hd]
      dsimp only
      rw [if_pos hl, if_pos hb, hdec]
  · intro e he
    revert he
    unfold Get
    rw [if_neg hk]
    cases hd : db key with
    | none => intro he; exact Except.noConfusion he
    | some r =>
      dsimp only
      by_cases hl : liveAt now r = true
      · rw [if_pos hl]
        by_cases hb : r.isBinary = true
        · rw [if_pos hb]
          cases hdec : decodeBinaryValue r.value with
          | error e2 =>
            intro he
            injection he with h2
            exact h2 ▸ decodeBinaryValue_error r.value e2 hdec
          | ok d => intro he; exact Except.noConfusion he
        · rw [if_neg hb]
          intro he
          exact Except.noConfusion he
      · rw [if_neg hl]
        intro he
        exact Except.noConfusion he

/-- C5 witness: a Get of a missing key and a Get of an expired row (stored
expiration instant 3, read at instant 5) both deliver the empty successful
response. -/
theorem c5_get_empty_or_live_witness :
    Get emptyDB 0 "k" = .ok ⟨none, none⟩ ∧
    Get (dbInsert emptyDB "k" ⟨"x", false, "E0", 0, some 3, 0⟩) 5 "k"
      = .ok ⟨none, none⟩ :=
  ⟨(c5_get_empty_or_live emptyDB 0 "k" (by decide)).1 rfl,
   (c5_get_empty_or_live (dbInsert emptyDB "k" ⟨"x", false, "E0", 0, some 3, 0⟩)
      5 "k" (by decide)).2.1 ⟨"x", false, "E0", 0, some 3, 0⟩
      (dbInsert_same emptyDB "k" _) rfl⟩

/-- C9 (confirmed): a configured table name reaches SQL interpolation only
when it is non-empty and made of ASCII letters, digits and underscores
(every name initTableName accepts passes the allow-list, the default
included), and a configured name containing any other character makes the
Init step fail with the invalid-identifier error before any SQL is
issued. -/
theorem c9_identifier_allowlist (prop : Option String) :
    (∀ n, initTableName prop = .ok n →
        n ≠ "" ∧ n.data.all validIdentChar = true) ∧
    (∀ s c, prop = some s → c ∈ s.data → validIdentChar c = false →
        initTableName prop = .error Err.invalidIdentifier) := by
  constructor
  · intro n hn
    cases prop with
    | none =>
      injection hn with h2
      subst h2
      exact ⟨by decide, by decide⟩
    | some t =>
      unfold initTableName at hn
      dsimp only at hn
      split_ifs at hn with h0 hvalid
      · injection hn with h2
        subst h2
        exact ⟨by decide, by decide⟩
      · injection hn with h2
        subst h2
        refine ⟨h0, ?_⟩
        unfold validIdentifier at hvalid
        rw [if_neg h0] at hvalid
        exact hvalid
  · intro s c hp hc hbad
    subst hp
    unfold initTableName
    dsimp only
    have hne : s ≠ "" := by
      intro h0
      subst h0
      simp at hc
    have hfalse : validIdentifier s = false := by
      unfold validIdentifier
      rw [if_neg hne]
      cases hall : s.data.all validIdentChar
      · rfl
      · have := List.all_eq_true.mp hall c hc
        rw [hbad] at this
        exact absurd this (by decide)
    rw [if_neg hne, if_neg (by simp [hfalse])]

/-- C9 witness: a name with a space fails before SQL; a well-formed name is
accepted and satisfies the allow-list. -/
theorem c9_identifier_allowlist_witness :
    initTableName (some "bad name") = .error Err.invalidIdentifier ∧
    "ok_table_1" ≠ "" ∧ "ok_table_1".data.all validIdentChar = true :=
  ⟨(c9_identifier_allowlist (some "bad name")).2 "bad name" ' ' rfl
      (by decide) (by decide),
   (c9_identifier_allowlist (some "ok_table_1")).1 "ok_table_1" rfl⟩

/-- C10 witness. -/
theorem c10_unknown_operation_skipped_witness :
    ExecuteMulti emptyDB 0 (fun _ => "E")
        [⟨"query", .set ⟨"k", .str "v", none, "", none⟩⟩]
      = ExecuteMulti emptyDB 0 (fun _ => "E") [] :=
  (c10_unknown_operation_skipped emptyDB 0 (fun _ => "E") 0
    ⟨"query", .set ⟨"k", .str "v", none, "", none⟩⟩ []
    (by decide) (by decide)).2

end SqliteStore
